import Mathlib

set_option maxHeartbeats 1000000

/-!
Verification of the md-to-pptx Markdown-to-slide pipeline: a shallow embedding of
`md_parser.py` (block parser, slide assembler, layout decision) and of the placement
parts of `pptx_generator.py`, with theorems settling the frozen claims.

Python strings are modelled as `List Char`; the `\s` character class and `str.strip`
are modelled over the ASCII whitespace characters; geometry is in EMU (the integer
unit `python-pptx` uses, 914400 per inch) embedded in `ℚ`.
-/

namespace MdToPptx

/-- Character lists standing for Python strings. -/
abbrev Str := List Char

/-- Shorthand turning a Lean string literal into its character list. -/
def S (s : String) : Str := s.data

/-- The whitespace class of Python's `str.strip` and of `\s` (ASCII part). -/
def pySpace (c : Char) : Bool :=
  c == ' ' || c == '\t' || c == '\n' || c == '\r' || c == '\x0b' || c == '\x0c'

/-- Python `str.lstrip()`. -/
def lstrip (s : Str) : Str := s.dropWhile pySpace

/-- Python `str.rstrip()`. -/
def rstrip (s : Str) : Str := (s.reverse.dropWhile pySpace).reverse

/-- Python `str.strip()`. -/
def pyStrip (s : Str) : Str := rstrip (lstrip s)

/-- Python `str.split(sep)` for a one-character separator: returns
`count sep + 1` pieces, some possibly empty. -/
def splitOn (sep : Char) : Str → List Str
  | [] => [[]]
  | c :: rest =>
    let r := splitOn sep rest
    if c == sep then [] :: r
    else
      match r with
      | [] => [[c]]
      | h :: t => (c :: h) :: t

/-- Python `'\n'.join(lines)`. -/
def joinLines : List Str → Str
  | [] => []
  | [l] => l
  | l :: ls => l ++ '\n' :: joinLines ls

/-- Decimal digits of a natural number, as characters. -/
def natChars (n : Nat) : Str := (Nat.toDigits 10 n)

/-! ## Data model (md_parser.py) -/

/-- A bullet- or numbered-list item: `{"text": ..., "indent": ...}`. -/
structure ListItem where
  text : Str
  indent : Nat
deriving DecidableEq

/-- `ContentElement` with the per-type payload folded into the constructor
(`metadata` keys become explicit fields: `level`, `language`, `alt_text`). -/
inductive ContentElement where
  | heading (text : Str) (level : Nat)
  | paragraph (text : Str)
  | bulletList (items : List ListItem)
  | numberedList (items : List ListItem)
  | codeBlock (code : Str) (language : Str)
  | table (headers : List Str) (rows : List (List Str))
  | image (path : Str) (altText : Str)
  | chartData (payload : Str)
deriving DecidableEq

/-- `SlideData`. -/
structure SlideData where
  title : Str := []
  subtitle : Str := []
  elements : List ContentElement := []
  layoutHint : Str := S "content"
  notes : Str := []
deriving DecidableEq

/-- The mutable fields of a `MarkdownParser` instance. -/
structure PState where
  slides : List SlideData := []
  current : Option SlideData := none
  warnings : List Str := []
deriving DecidableEq

/-! ## Line matchers (the regexes of md_parser.py) -/

/-- `line.strip().startswith('```')`. -/
def isCodeFence (l : Str) : Bool := (S "```").isPrefixOf (pyStrip l)

/-- `re.match(r'^(#{1,6})\s+(.+)$', line)`: on success, the heading level and
the raw text of group 2 (greedy `\s+` backtracking one character when the rest
of the line is all whitespace). -/
def headingMatch (l : Str) : Option (Nat × Str) :=
  let hs := l.takeWhile (· == '#')
  let n := hs.length
  if 1 ≤ n ∧ n ≤ 6 then
    let r := l.drop n
    let ws := r.takeWhile pySpace
    let rem := r.drop ws.length
    if ws = [] then none
    else if rem ≠ [] then some (n, rem)
    else if 2 ≤ ws.length then some (n, [ws.getLastD ' '])
    else none
  else none

/-- `re.match(r'!\[([^\]]*)\]\(([^)]+)\)', stripped)`: alt text and path. -/
def imageMatch (l : Str) : Option (Str × Str) :=
  match l with
  | '!' :: '[' :: rest =>
    let alt := rest.takeWhile (· ≠ ']')
    (match rest.drop alt.length with
     | ']' :: '(' :: r2 =>
       let path := r2.takeWhile (· ≠ ')')
       if path = [] then none
       else if (r2.drop path.length).head? = some ')' then some (alt, path)
       else none
     | _ => none)
  | _ => none

/-- `re.match(r'^\s*[-*+]\s+', line)`. -/
def bulletGuard (l : Str) : Bool :=
  match l.dropWhile pySpace with
  | c :: d :: _ => (c == '-' || c == '*' || c == '+') && pySpace d
  | _ => false

/-- `re.match(r'^(\s*)[-*+]\s+(.+)$', line)`: leading-whitespace length and
the raw text of group 2. -/
def bulletItem (l : Str) : Option (Nat × Str) :=
  let ind := l.takeWhile pySpace
  match l.drop ind.length with
  | c :: rest =>
    if c == '-' || c == '*' || c == '+' then
      let ws := rest.takeWhile pySpace
      let rem := rest.drop ws.length
      if ws = [] then none
      else if rem ≠ [] then some (ind.length, rem)
      else if 2 ≤ ws.length then some (ind.length, [ws.getLastD ' '])
      else none
    else none
  | [] => none

/-- `re.match(r'^\s*\d+\.\s+', line)`. -/
def numberedGuard (l : Str) : Bool :=
  let r := l.dropWhile pySpace
  let ds := r.takeWhile Char.isDigit
  ds ≠ [] &&
    match r.drop ds.length with
    | '.' :: d :: _ => pySpace d
    | _ => false

/-- `re.match(r'^(\s*)\d+\.\s+(.+)$', line)`. -/
def numberedItem (l : Str) : Option (Nat × Str) :=
  let ind := l.takeWhile pySpace
  let r := l.drop ind.length
  let ds := r.takeWhile Char.isDigit
  if ds = [] then none
  else
    match r.drop ds.length with
    | '.' :: rest =>
      let ws := rest.takeWhile pySpace
      let rem := rest.drop ws.length
      if ws = [] then none
      else if rem ≠ [] then some (ind.length, rem)
      else if 2 ≤ ws.length then some (ind.length, [ws.getLastD ' '])
      else none
    | _ => none

/-- `re.match(r'^\s*\|?\s*[-:]+\s*\|', line)` — the table-separator guard the
main loop applies to the line after a candidate header. -/
def tableSepGuard (l : Str) : Bool :=
  let r := l.dropWhile pySpace
  let r := match r with
           | '|' :: t => t.dropWhile pySpace
           | _ => r
  let ds := r.takeWhile (fun c => c == '-' || c == ':')
  ds ≠ [] && ((r.drop ds.length).dropWhile pySpace).head? = some '|'

/-- `re.match(r'^\s*\|?\s*[-:]+', line)` — the laxer separator skip used
inside `_parse_table`. -/
def tableSepSkip (l : Str) : Bool :=
  let r := l.dropWhile pySpace
  let r := match r with
           | '|' :: t => t.dropWhile pySpace
           | _ => r
  (r.takeWhile (fun c => c == '-' || c == ':')) ≠ []

/-! ## Multi-line sub-parsers (consume lines, return the unscanned suffix) -/

/-- `_parse_code_block`, phrased on the fence line `l` and the following lines:
returns the produced element and the unscanned suffix. -/
def parseCodeBlock (l : Str) (rest : List Str) : ContentElement × List Str :=
  let first := pyStrip l
  let language := if 3 < first.length then pyStrip (first.drop 3) else []
  let body := rest.takeWhile (fun s => ¬ isCodeFence s)
  let rem := (rest.dropWhile (fun s => ¬ isCodeFence s)).drop 1
  (.codeBlock (joinLines body) language, rem)

/-- One table row (or the header row): strip, drop one leading and one
trailing `|`, split on `|`, strip each cell. -/
def splitRow (l : Str) : List Str :=
  let line := pyStrip l
  let line := if line.head? = some '|' then line.drop 1 else line
  let line := if line.getLast? = some '|' then line.dropLast else line
  (splitOn '|' line).map pyStrip

/-- A line still counts as a data row: stripped non-empty and containing `|`. -/
def isDataRow (l : Str) : Bool := pyStrip l ≠ [] && (pyStrip l).contains '|'

/-- `_parse_table` on the header line `l` and the following lines. -/
def parseTable (l : Str) (rest : List Str) : ContentElement × List Str :=
  let headers := splitRow l
  let afterSep :=
    match rest with
    | s :: t => if tableSepSkip s then t else rest
    | [] => []
  let rows := (afterSep.takeWhile isDataRow).map splitRow
  (.table headers rows, afterSep.dropWhile isDataRow)

/-- The item-collection loop of `_parse_bullet_list`: bullet lines, tolerating a
blank line only when the line right after it is again a bullet line. -/
def bulletCollect : List Str → List ListItem × List Str
  | [] => ([], [])
  | l :: rest =>
    match bulletItem l with
    | some (ind, txt) =>
      let r := bulletCollect rest
      (⟨pyStrip txt, ind / 2⟩ :: r.1, r.2)
    | none =>
      if pyStrip l = [] then
        match rest with
        | [] => ([], [])
        | l2 :: _ => if bulletGuard l2 then bulletCollect rest else ([], rest)
      else ([], l :: rest)

/-- The item-collection loop of `_parse_numbered_list`. -/
def numberedCollect : List Str → List ListItem × List Str
  | [] => ([], [])
  | l :: rest =>
    match numberedItem l with
    | some (ind, txt) =>
      let r := numberedCollect rest
      (⟨pyStrip txt, ind / 2⟩ :: r.1, r.2)
    | none =>
      if pyStrip l = [] then
        match rest with
        | [] => ([], [])
        | l2 :: _ => if numberedGuard l2 then numberedCollect rest else ([], rest)
      else ([], l :: rest)

/-! ## Slide-assembler handlers -/

/-- The lazily created slide of `_ensure_slide`. -/
def untitledSlide : SlideData := { title := S "Untitled" }

/-- `_ensure_slide`. -/
def ensure (st : PState) : PState :=
  match st.current with
  | none => { st with current := some untitledSlide }
  | some _ => st

/-- Append an element to the current slide (callers run `ensure` first). -/
def appendElem (st : PState) (e : ContentElement) : PState :=
  { st with current := st.current.map (fun c => { c with elements := c.elements ++ [e] }) }

/-- `_handle_heading`. -/
def handleHeading (st : PState) (level : Nat) (text : Str) : PState :=
  if level ≤ 2 then
    { st with
      slides := st.slides ++ st.current.toList
      current := some { title := text
                        layoutHint := if level = 1 then S "title" else S "content" } }
  else
    appendElem (ensure st) (.heading text level)

/-- `_add_paragraph`. -/
def addParagraph (st : PState) (text : Str) : PState :=
  let st := ensure st
  match st.current with
  | none => st
  | some c =>
    if c.layoutHint = S "title" ∧ c.subtitle = [] ∧ c.elements = [] then
      { st with current := some { c with subtitle := text } }
    else
      { st with current := some { c with elements := c.elements ++ [.paragraph text] } }

/-- `path.startswith(('http://', 'https://', 'data:'))`. -/
def nonLocalPath (path : Str) : Bool :=
  (S "http://").isPrefixOf path || (S "https://").isPrefixOf path ||
    (S "data:").isPrefixOf path

/-- The warning text for a skipped non-local image. -/
def skipImageWarning (path : Str) : Str := S "Skipped non-local image: " ++ path

/-- `_add_image`. -/
def addImage (st : PState) (path : Str) (altText : Str) : PState :=
  let st := ensure st
  if nonLocalPath path then
    { st with warnings := st.warnings ++ [skipImageWarning path] }
  else
    appendElem st (.image path altText)

/-! ## The main parse loop -/

/-- The `while` loop of `MarkdownParser.parse`, with the current line list as
the loop variable and a fuel counter standing for non-termination: every
terminating Python run consumes at least one line per iteration, so fuel
`lines.length + 1` is exhausted only on inputs where the Python loop spins
forever (a list-guard line that the item regex rejects). -/
def parseLoop : Nat → List Str → PState → Option PState
  | 0, _, _ => none
  | _ + 1, [], st => some st
  | fuel + 1, l :: rest, st =>
    if isCodeFence l then
      let pr := parseCodeBlock l rest
      parseLoop fuel pr.2 (appendElem (ensure st) pr.1)
    else if l.contains '|' &&
        (match rest with
         | n :: _ => n.contains '|' && tableSepGuard n
         | [] => false) then
      let pr := parseTable l rest
      parseLoop fuel pr.2 (appendElem (ensure st) pr.1)
    else
      match headingMatch l with
      | some lt => parseLoop fuel rest (handleHeading st lt.1 (pyStrip lt.2))
      | none =>
        match imageMatch (pyStrip l) with
        | some ap => parseLoop fuel rest (addImage st ap.2 ap.1)
        | none =>
          if bulletGuard l then
            let r := bulletCollect (l :: rest)
            let st := ensure st
            let st := if r.1 = [] then st else appendElem st (.bulletList r.1)
            parseLoop fuel r.2 st
          else if numberedGuard l then
            let r := numberedCollect (l :: rest)
            let st := ensure st
            let st := if r.1 = [] then st else appendElem st (.numberedList r.1)
            parseLoop fuel r.2 st
          else if pyStrip l = [] then parseLoop fuel rest st
          else parseLoop fuel rest (addParagraph st (pyStrip l))

/-! ## Layout decision -/

def ContentElement.isImage : ContentElement → Bool
  | .image _ _ => true
  | _ => false

def ContentElement.isTable : ContentElement → Bool
  | .table _ _ => true
  | _ => false

def ContentElement.isChart : ContentElement → Bool
  | .chartData _ => true
  | _ => false

def ContentElement.isCode : ContentElement → Bool
  | .codeBlock _ _ => true
  | _ => false

/-- The per-slide body of `_determine_layouts`. -/
def determineLayout (s : SlideData) : SlideData :=
  if s.layoutHint = S "title" then s
  else
    let hasImage := s.elements.any (·.isImage)
    let hasTable := s.elements.any (·.isTable)
    let hasChart := s.elements.any (·.isChart)
    let hasCode := s.elements.any (·.isCode)
    let elementCount := s.elements.length
    { s with layoutHint :=
        if hasChart then S "chart"
        else if hasImage && elementCount ≤ 3 then S "image"
        else if hasTable || hasCode then S "content"
        else if 4 < elementCount then S "two_column"
        else S "content" }

/-! ## The `parse` entry points -/

/-- `MarkdownParser.parse` run from a freshly reset state: the resulting deck
and warning list (`none` when the Python loop does not terminate). -/
def parse (input : Str) : Option (List SlideData × List Str) :=
  let lines := splitOn '\n' input
  (parseLoop (lines.length + 1) lines {}).map fun st =>
    ((st.slides ++ st.current.toList).map determineLayout, st.warnings)

/-- `MarkdownParser.parse` as the method acting on an instance `self`: the
three mutable fields are reset before scanning, then the deck is finalized in
place; returns the updated instance together with the returned deck. -/
def mparse (self : PState) (input : Str) : Option (PState × List SlideData) :=
  let self := { self with slides := [], current := none, warnings := [] }
  let lines := splitOn '\n' input
  (parseLoop (lines.length + 1) lines self).map fun st =>
    let st := { st with
                slides := (st.slides ++ st.current.toList).map determineLayout
                current := st.current.map determineLayout }
    (st, st.slides)

/-! ## Placement engine (pptx_generator.py), geometry in EMU embedded in ℚ

`python-pptx` lengths are integers of 1/914400 inch; `Inches(x)` truncates
`x * 914400` computed in binary floating point, which is how the constants
below were obtained (e.g. `Inches(13.333) = 12191695`). -/

def SLIDE_WIDTH : ℚ := 12191695
def SLIDE_HEIGHT : ℚ := 6858000
def MARGIN_LEFT : ℚ := 457200
def MARGIN_RIGHT : ℚ := 457200
def MARGIN_TOP : ℚ := 1097280
def MARGIN_BOTTOM : ℚ := 457200

/-- `min(len(code.split('\n')), 15)` — the capped displayed line count. -/
def codeLineCap (code : Str) : Nat := min (splitOn '\n' code).length 15

/-- The height `_add_code_element` returns: `Inches(0.25) * line_count + Inches(0.3)`. -/
def codeHeight (code : Str) : ℚ := 228600 * (codeLineCap code) + 274320

/-- The text `_add_code_element` displays, with the truncation marker. -/
def codeDisplay (code : Str) : Str :=
  let lines := splitOn '\n' code
  let lc := min lines.length 15
  let d := joinLines (lines.take lc)
  if lc < lines.length then
    d ++ '\n' :: (S "... (" ++ natChars (lines.length - lc) ++ S " more lines)")
  else d

/-- The height `_add_table_element` returns. -/
def tableHeight (headers : List Str) (rows : List (List Str)) : ℚ :=
  if headers = [] ∧ rows = [] then 0
  else
    let colCount := if headers ≠ [] then headers.length
                    else match rows with
                         | r :: _ => r.length
                         | [] => 0
    let rowCount := rows.length + (if headers ≠ [] then 1 else 0)
    if colCount = 0 ∨ rowCount = 0 then 0 else 365760 * rowCount

/-- The height `_add_element` returns per element type. The IMAGE case reads the
file system and the image file through PIL, so it is abstracted as the oracle
`imgH` (path ↦ resulting height); every other case is from the source. -/
def elementHeight (imgH : Str → ℚ) : ContentElement → ℚ
  | .paragraph _ => 457200
  | .heading _ _ => 365760
  | .bulletList items => 320040 * items.length
  | .numberedList items => 320040 * items.length
  | .codeBlock code _ => codeHeight code
  | .table hs rs => tableHeight hs rs
  | .image path _ => imgH path
  | .chartData _ => 0

/-- A placed content element's box. -/
structure Placement where
  left : ℚ
  top : ℚ
  width : ℚ
  height : ℚ
deriving DecidableEq

/-- The warning `_create_content_slide` records on overflow. -/
def overflowWarning (title : Str) : Str := S "Content overflow on slide: " ++ title

/-- The vertical flow of `_create_content_slide`: place at the cursor unless it
already exceeds `SLIDE_HEIGHT - MARGIN_BOTTOM`, in which case warn once and stop. -/
def contentFlow (imgH : Str → ℚ) (title : Str) (left width : ℚ) :
    List ContentElement → ℚ → List Placement × List Str
  | [], _ => ([], [])
  | e :: es, top =>
    if SLIDE_HEIGHT - MARGIN_BOTTOM < top then ([], [overflowWarning title])
    else
      let h := elementHeight imgH e
      let r := contentFlow imgH title left width es (top + h + 182880)
      (⟨left, top, width, h⟩ :: r.1, r.2)

/-- `_create_content_slide`: the element placements and any overflow warning. -/
def createContentSlide (imgH : Str → ℚ) (s : SlideData) : List Placement × List Str :=
  contentFlow imgH s.title MARGIN_LEFT (SLIDE_WIDTH - MARGIN_LEFT - MARGIN_RIGHT)
    s.elements MARGIN_TOP

/-- The per-column flow of `_create_two_column_slide` (no overflow check in the
source: every element is placed). -/
def colFlow (imgH : Str → ℚ) (left width : ℚ) :
    List ContentElement → ℚ → List Placement
  | [], _ => []
  | e :: es, top =>
    let h := elementHeight imgH e
    ⟨left, top, width, h⟩ :: colFlow imgH left width es (top + h + 137160)

/-- `col_width = (SLIDE_WIDTH - MARGIN_LEFT - MARGIN_RIGHT - Inches(0.5)) / 2`. -/
def colWidth : ℚ := (SLIDE_WIDTH - MARGIN_LEFT - MARGIN_RIGHT - 457200) / 2

/-- `_create_two_column_slide`: split at `len(elements) // 2`, flow each half in
its own column from the top margin; the second component is the warnings the
call appends — none, since the source has no overflow check here. -/
def createTwoColumnSlide (imgH : Str → ℚ) (s : SlideData) :
    List Placement × List Str :=
  let mid := s.elements.length / 2
  (colFlow imgH MARGIN_LEFT colWidth (s.elements.take mid) MARGIN_TOP ++
     colFlow imgH (MARGIN_LEFT + colWidth + 457200) colWidth
       (s.elements.drop mid) MARGIN_TOP,
   [])

/-! ## Table-to-chart conversion (`_add_chart_from_table`) -/

/-- A Python `float` result: a finite value carries the exact rational value of
the IEEE binary64 double the code computes (every finite double is a rational);
infinities carry their sign; `nan` is sign-less (`float("-nan")` is `nan`). -/
inductive PyFloat where
  | finite (val : ℚ)
  | inf (neg : Bool)
  | nan
deriving DecidableEq

/-- Value of a list of ASCII digits. -/
def digitsToNat (ds : Str) : ℕ :=
  ds.foldl (fun a c => a * 10 + (c.toNat - '0'.toNat)) 0

/-- After a digit of a digit group: each underscore must be followed directly
by a digit (the preceding character is already known to be a digit). -/
def underscoresAux : Str → Bool
  | [] => true
  | '_' :: [] => false
  | '_' :: c :: t => c.isDigit && underscoresAux (c :: t)
  | _ :: t => underscoresAux t

/-- PEP 515 validity of a run of digits and underscores: every underscore sits
between two digits (`float("1_0") = 10.0`, but `"_1"`, `"1_"`, `"1__0"` are
rejected). -/
def underscoresOK : Str → Bool
  | [] => true
  | '_' :: _ => false
  | _ :: rest => underscoresAux rest

/-- The maximal run of ASCII digits and underscores at the front of `s`:
the digits with underscores removed and the rest of the string, or `none` when
an underscore violates PEP 515. The run may be empty. -/
def digitRun (s : Str) : Option (Str × Str) :=
  let run := s.takeWhile (fun c => c.isDigit || c == '_')
  if underscoresOK run then some (run.filter Char.isDigit, s.drop run.length)
  else none

/-- Round a rational to the nearest integer, ties to even. -/
def roundHalfEven (x : ℚ) : ℤ :=
  let n := ⌊x⌋
  let f := x - (n : ℚ)
  if f < 1 / 2 then n
  else if 1 / 2 < f then n + 1
  else if n % 2 = 0 then n else n + 1

/-- `2 ^ e` as a rational, for an integer exponent. -/
def binPow (e : ℤ) : ℚ :=
  if 0 ≤ e then ((2 ^ e.toNat : ℕ) : ℚ) else 1 / ((2 ^ (-e).toNat : ℕ) : ℚ)

/-- The IEEE binary64 double nearest to an exact rational (round to nearest,
ties to even; gradual underflow to subnormals and zero; values of 2^1024 or
more after rounding overflow to a signed infinity) — this is what CPython's
correctly rounded `strtod` produces for a decimal literal with this exact
value, e.g. `float("1e400") = inf` and `float("2.5e-324") = 5e-324`. -/
def b64Round (q : ℚ) : PyFloat :=
  if q = 0 then .finite 0
  else
    let neg := decide (q < 0)
    let sgn : ℚ := if q < 0 then -1 else 1
    let a := |q|
    let e0 : ℤ := (a.num.natAbs.log2 : ℤ) - (a.den.log2 : ℤ) - 1
    let e : ℤ := if binPow (e0 + 1) ≤ a then e0 + 1 else e0
    if e < -1022 then
      .finite (sgn * (roundHalfEven (a / binPow (-1074)) : ℚ) * binPow (-1074))
    else
      let v : ℚ := (roundHalfEven (a / binPow (e - 52)) : ℚ) * binPow (e - 52)
      if binPow 1024 ≤ v then .inf neg else .finite (sgn * v)

/-- Python `float(cell)`: strip whitespace; optional sign; the complete words
`inf`/`infinity`/`nan` case-insensitively; otherwise a decimal literal
`[digits][.digits][(e|E)[sign]digits]` with at least one mantissa digit,
PEP 515 underscores between digits, and the whole string consumed. A finite
result is the correctly rounded binary64 value of the exact decimal, so
`float("0.1")` is `3602879701896397 / 2^55`, and too-large literals give a
signed infinity. Non-ASCII digits, which Python also accepts, are outside the
modelled domain (ASCII cell text). -/
def pyFloatParse (s : Str) : Option PyFloat :=
  let t0 := pyStrip s
  let signed : Bool × Str :=
    match t0 with
    | '+' :: r => (false, r)
    | '-' :: r => (true, r)
    | _ => (false, t0)
  let neg := signed.1
  let t := signed.2
  let low := t.map Char.toLower
  if low = S "inf" ∨ low = S "infinity" then some (.inf neg)
  else if low = S "nan" then some .nan
  else
    match digitRun t with
    | none => none
    | some (ip, t2) =>
      let fr : Option (Str × Str) :=
        match t2 with
        | '.' :: r => digitRun r
        | _ => some ([], t2)
      match fr with
      | none => none
      | some (fp, t3) =>
        if ip = [] ∧ fp = [] then none
        else
          let mant : ℚ :=
            (if neg then -1 else 1) *
              ((digitsToNat ip : ℚ) + (digitsToNat fp : ℚ) / (10 ^ fp.length : ℚ))
          match t3 with
          | [] => some (b64Round mant)
          | e :: r =>
            if e == 'e' || e == 'E' then
              let es : Bool × Str :=
                match r with
                | '+' :: r2 => (false, r2)
                | '-' :: r2 => (true, r2)
                | _ => (false, r)
              match digitRun es.2 with
              | some (ds, []) =>
                if ds = [] then none
                else
                  let ex := digitsToNat ds
                  some (b64Round (if es.1 then mant / 10 ^ ex else mant * 10 ^ ex))
              | _ => none
            else none

/-- `cell.replace(',', '')`. -/
def removeCommas (s : Str) : Str := s.filter (· ≠ ',')

/-- The value a cell contributes to its series: `float(row[c].replace(',',''))`
with `0` appended for a parse failure (`ValueError`) and `0` for a missing cell
(the `col_idx < len(row)` guard in the source). -/
def cellValue (row : List Str) (c : Nat) : PyFloat :=
  if c < row.length then
    (pyFloatParse (removeCommas (row.getD c []))).getD (.finite 0)
  else .finite 0

/-- What `_add_chart_from_table` does with a TABLE element. -/
inductive ChartOutcome where
  /-- Fewer than 2 header columns or no rows: `_add_table_element` is called. -/
  | fallbackTable
  /-- An exception inside the chart branch (an empty row makes `row[0]` raise):
  a warning is recorded and `_add_table_element` is called. -/
  | errorTable
  /-- A category/series chart is built. -/
  | chart (categories : List Str) (series : List (Str × List PyFloat))
deriving DecidableEq

/-- `_add_chart_from_table`. -/
def chartFromTable (headers : List Str) (rows : List (List Str)) : ChartOutcome :=
  if headers.length < 2 ∨ rows = [] then .fallbackTable
  else if rows.any (· = []) then .errorTable
  else
    .chart (rows.map fun r => r.headD [])
      ((List.range (headers.length - 1)).map fun k =>
        ((headers.drop 1).getD k [], rows.map fun r => cellValue r (k + 1)))

/-! ## Ghost pass: the level-1/2 headings of an input, in source order

`gLoop` walks the line list with exactly the consumption discipline of
`parseLoop` and returns the pair (does any slide-creating content occur before
the first level-1/2 heading?, the stripped texts of the level-1/2 headings in
source order). It formalises "the level-1/level-2 headings of the input". -/
def gLoop : Nat → List Str → Option (Bool × List Str)
  | 0, _ => none
  | _ + 1, [] => some (false, [])
  | fuel + 1, l :: rest =>
    if isCodeFence l then
      (gLoop fuel (parseCodeBlock l rest).2).map fun r => (true, r.2)
    else if l.contains '|' &&
        (match rest with
         | n :: _ => n.contains '|' && tableSepGuard n
         | [] => false) then
      (gLoop fuel (parseTable l rest).2).map fun r => (true, r.2)
    else
      match headingMatch l with
      | some lt =>
        if lt.1 ≤ 2 then (gLoop fuel rest).map fun r => (false, pyStrip lt.2 :: r.2)
        else (gLoop fuel rest).map fun r => (true, r.2)
      | none =>
        match imageMatch (pyStrip l) with
        | some _ => (gLoop fuel rest).map fun r => (true, r.2)
        | none =>
          if bulletGuard l then
            (gLoop fuel (bulletCollect (l :: rest)).2).map fun r => (true, r.2)
          else if numberedGuard l then
            (gLoop fuel (numberedCollect (l :: rest)).2).map fun r => (true, r.2)
          else if pyStrip l = [] then gLoop fuel rest
          else (gLoop fuel rest).map fun r => (true, r.2)

/-- The title of the in-progress slide, if one is open. -/
def curTitle (st : PState) : Option Str := st.current.map (·.title)

/-- The title that is open once the first slide-creating event (if any, per the
flag `b`) has happened, starting from open title `c`. -/
def startTitle (c : Option Str) (b : Bool) : Option Str :=
  match c with
  | some t => some t
  | none => if b then some (S "Untitled") else none

/-- Titles flushed into the deck while scanning lines whose level-1/2 heading
texts are `hs`, starting from open title `c` with content flag `b`. -/
def flushedTitles (c : Option Str) (b : Bool) (hs : List Str) : List Str :=
  match hs with
  | [] => []
  | _ => (startTitle c b).toList ++ hs.dropLast

/-- The title left open after scanning such lines. -/
def finalTitle (c : Option Str) (b : Bool) (hs : List Str) : Option Str :=
  match hs with
  | [] => startTitle c b
  | _ => hs.getLast?

/-! ## Claim-side specification functions -/

/-- The layout rule chain as the specification words it (claim C2). -/
def layoutRuleSpec (es : List ContentElement) : Str :=
  if es.any (·.isChart) then S "chart"
  else if es.any (·.isImage) ∧ es.length ≤ 3 then S "image"
  else if es.any (·.isTable) ∨ es.any (·.isCode) then S "content"
  else if 4 < es.length then S "two_column"
  else S "content"

/-- Column placement as the amended claim C4 words it: the j-th element of the
column sits at the top margin plus the heights-plus-gaps of the elements before
it, with the shared per-type height rules. -/
def colSpec (imgH : Str → ℚ) (left width : ℚ) (es : List ContentElement) :
    List Placement :=
  (List.range es.length).map fun j =>
    ⟨left,
     MARGIN_TOP + ((es.take j).map (fun e => elementHeight imgH e + 137160)).sum,
     width,
     elementHeight imgH (es.getD j (.paragraph []))⟩

/-! ## Parser-state invariants (claims C3, C5, C6) -/

/-- Per-element invariant: image elements hold local paths and table rows are
never empty cell lists. -/
def elemOK : ContentElement → Prop
  | .image p _ => nonLocalPath p = false
  | .table _ rs => ∀ r ∈ rs, r ≠ []
  | _ => True

/-- Per-slide invariant: a non-empty subtitle only on a `title` slide, and all
elements well-formed. -/
def slideOK (s : SlideData) : Prop :=
  (s.subtitle ≠ [] → s.layoutHint = S "title") ∧ ∀ e ∈ s.elements, elemOK e

/-- Whole-parser-state invariant. -/
def stateOK (st : PState) : Prop :=
  (∀ s ∈ st.slides, slideOK s) ∧ ∀ s ∈ st.current.toList, slideOK s

/-! ## Concrete data for witnesses and counterexamples -/

/-- A slide of five plain paragraphs (claim C2's instance). -/
def fiveParaSlide : SlideData :=
  { title := S "P"
    elements := [.paragraph (S "a"), .paragraph (S "b"), .paragraph (S "c"),
                 .paragraph (S "d"), .paragraph (S "e")] }

/-- A two-column slide of twenty paragraphs (claim C4's counterexample: one
column holds ten, far more than fit above the bottom margin). -/
def slide20 : SlideData :=
  { title := S "Big"
    elements := List.replicate 20 (.paragraph (S "p"))
    layoutHint := S "two_column" }

/-- An image-height oracle for slides without images. -/
def imgH0 : Str → ℚ := fun _ => 0

/-- The single-line image input of claim C10. -/
def mkImageLine (alt path : Str) : Str :=
  '!' :: '[' :: (alt ++ ']' :: '(' :: (path ++ [')']))

/-! ## Helper lemmas -/

theorem splitOn_ne_nil (sep : Char) (s : Str) : splitOn sep s ≠ [] := by
  cases s with
  | nil => simp [splitOn]
  | cons c rest =>
    simp only [splitOn]
    split
    · simp
    · cases h : splitOn sep rest <;> simp

theorem joinLines_splitOn (s : Str) : joinLines (splitOn '\n' s) = s := by
  induction s with
  | nil => rfl
  | cons c rest ih =>
    simp only [splitOn]
    split
    · next hc =>
      have hne := splitOn_ne_nil '\n' rest
      cases h : splitOn '\n' rest with
      | nil => exact absurd h hne
      | cons a as =>
        have : c = '\n' := by simpa using hc
        subst this
        rw [h] at ih
        cases as <;> simp_all [joinLines]
    · next hc =>
      have hne := splitOn_ne_nil '\n' rest
      cases h : splitOn '\n' rest with
      | nil => exact absurd h hne
      | cons a as =>
        rw [h] at ih
        cases as <;> simp_all [joinLines]

theorem takeWhile_append_of_all {α : Type} {p : α → Bool} {xs ys : List α}
    (h : ∀ x ∈ xs, p x = true) :
    (xs ++ ys).takeWhile p = xs ++ ys.takeWhile p := by
  induction xs with
  | nil => simp
  | cons a as ih =>
    have ha : p a = true := h a (by simp)
    simp only [List.cons_append, List.takeWhile_cons, ha, if_true]
    rw [ih fun x hx => h x (by simp [hx])]

theorem dropWhile_append_of_all {α : Type} {p : α → Bool} {xs ys : List α}
    (h : ∀ x ∈ xs, p x = true) :
    (xs ++ ys).dropWhile p = ys.dropWhile p := by
  induction xs with
  | nil => simp
  | cons a as ih =>
    have ha : p a = true := h a (by simp)
    simp only [List.cons_append, List.dropWhile_cons, ha, if_true]
    exact ih fun x hx => h x (by simp [hx])

theorem determineLayout_title (s : SlideData) : (determineLayout s).title = s.title := by
  unfold determineLayout
  split <;> rfl

theorem determineLayout_subtitle (s : SlideData) :
    (determineLayout s).subtitle = s.subtitle := by
  unfold determineLayout
  split <;> rfl

theorem determineLayout_elements (s : SlideData) :
    (determineLayout s).elements = s.elements := by
  unfold determineLayout
  split <;> rfl

/-! ## Claim C2: the layout-decision rule chain -/

/-- C2. For every finished slide not already tagged `title`, `_determine_layouts`
assigns `layout_hint` by exactly the ordered rule chain of the specification
(chart, then image with at most 3 elements, then table/code, then more than 4
elements, else content) over the final element list; a slide of exactly five
paragraphs gets `two_column` and a `title` slide is left unchanged. -/
theorem layout_rule_chain :
    (∀ s : SlideData,
        determineLayout s =
          if s.layoutHint = S "title" then s
          else { s with layoutHint := layoutRuleSpec s.elements }) ∧
    determineLayout fiveParaSlide =
      { fiveParaSlide with layoutHint := S "two_column" } ∧
    (∀ s : SlideData, s.layoutHint = S "title" → determineLayout s = s) := by
  refine ⟨?_, by decide, ?_⟩
  · intro s
    unfold determineLayout layoutRuleSpec
    split
    · next h => simp [h]
    · next h =>
      simp only [if_neg h]
      by_cases h1 : s.elements.any (·.isChart) = true <;>
        by_cases h2 : s.elements.any (·.isImage) = true <;>
        by_cases h3 : s.elements.length ≤ 3 <;>
        by_cases h4 : s.elements.any (·.isTable) = true <;>
        by_cases h5 : s.elements.any (·.isCode) = true <;>
        by_cases h6 : 4 < s.elements.length <;>
        simp [h1, h2, h3, h4, h5, h6]
  · intro s h
    unfold determineLayout
    simp [h]

/-- Witness for C2: a concrete slide tagged `title` is left unchanged. -/
theorem layout_rule_chain_witness :
    determineLayout { title := S "T", layoutHint := S "title" } =
      { title := S "T", layoutHint := S "title" } :=
  layout_rule_chain.2.2 _ rfl

/-! ## Claim C7: code-block height and truncation -/

/-- C7. For a CODE_BLOCK whose content has `L` lines, the placed height is
`line_height * min(L, 15) + fixed_padding` (in EMU: `228600 * min L 15 + 274320`);
when `L > 15` the displayed text is the first 15 lines with the
"... (L−15 more lines)" marker appended, and otherwise the code unchanged —
the height formula never sees the marker, only the capped line count. -/
theorem code_block_height :
    ∀ code : Str,
      codeHeight code = 228600 * (min (splitOn '\n' code).length 15 : ℕ) + 274320 ∧
      (∀ (imgH : Str → ℚ) (lang : Str),
          elementHeight imgH (.codeBlock code lang) = codeHeight code) ∧
      codeDisplay code =
        (if 15 < (splitOn '\n' code).length then
          joinLines ((splitOn '\n' code).take 15) ++
            '\n' :: (S "... (" ++ natChars ((splitOn '\n' code).length - 15) ++
              S " more lines)")
        else code) := by
  intro code
  refine ⟨rfl, fun _ _ => rfl, ?_⟩
  unfold codeDisplay
  by_cases h : 15 < (splitOn '\n' code).length
  · have hm : min (splitOn '\n' code).length 15 = 15 := by omega
    simp [h, hm]
  · have hm : min (splitOn '\n' code).length 15 = (splitOn '\n' code).length := by omega
    simp only [hm, if_neg h, Nat.lt_irrefl, List.take_length]
    simp [joinLines_splitOn]

/-! ## Claim C9: determinism of `parse` -/

/-- C9. `MarkdownParser.parse` resets the instance's `slides`, `current_slide`
and `warnings` fields before scanning, so its result — the returned deck, the
final instance state, and so the warning list — does not depend on any earlier
state of the instance: running it twice on the same input (on the same or on
different instances) yields identical `SlideData` sequences and warning lists. -/
theorem parse_deterministic :
    ∀ (p q : PState) (input : Str), mparse p input = mparse q input := by
  intro p q input
  rfl

/-! ## Claim C8: list-item indent arithmetic -/

/-- C8. A bullet or numbered list-item line whose leading whitespace has length
`k` is stored with `indent = k / 2` (integer floor division). -/
theorem list_indent_rule :
    ∀ (ws : Str) (c : Char) (t : Str) (rest : List Str),
      (∀ x ∈ ws, pySpace x = true) → pySpace c = false →
      (bulletCollect ((ws ++ '-' :: ' ' :: c :: t) :: rest)).1 =
        ⟨pyStrip (c :: t), ws.length / 2⟩ :: (bulletCollect rest).1 ∧
      (numberedCollect ((ws ++ '1' :: '.' :: ' ' :: c :: t) :: rest)).1 =
        ⟨pyStrip (c :: t), ws.length / 2⟩ :: (numberedCollect rest).1 := by
  intro ws c t rest hws hc
  have hdash : pySpace '-' = false := by decide
  have hone : pySpace '1' = false := by decide
  have hsp : pySpace ' ' = true := by decide
  have htw : (' ' :: c :: t).takeWhile pySpace = [' '] := by
    simp [List.takeWhile_cons, hsp, hc]
  have hb : bulletItem (ws ++ '-' :: ' ' :: c :: t) = some (ws.length, c :: t) := by
    simp only [bulletItem, takeWhile_append_of_all hws, List.takeWhile_cons, hdash,
      Bool.false_eq_true, if_false, List.append_nil, List.drop_left, htw]
    simp
  have hn : numberedItem (ws ++ '1' :: '.' :: ' ' :: c :: t) = some (ws.length, c :: t) := by
    simp only [numberedItem, takeWhile_append_of_all hws, List.takeWhile_cons, hone,
      Bool.false_eq_true, if_false, List.append_nil, List.drop_left, htw]
    simp [htw, hsp]
  constructor
  · simp only [bulletCollect, hb]
  · simp only [numberedCollect, hn]

/-- Witness for C8: whitespace lengths 0, 1, 2, 3, 4 store indents 0, 0, 1, 1, 2. -/
theorem list_indent_rule_witness :
    (bulletCollect [S "- x"]).1 = [⟨S "x", 0⟩] ∧
    (bulletCollect [S " - x"]).1 = [⟨S "x", 0⟩] ∧
    (bulletCollect [S "  - x"]).1 = [⟨S "x", 1⟩] ∧
    (bulletCollect [S "   - x"]).1 = [⟨S "x", 1⟩] ∧
    (numberedCollect [S "    1. x"]).1 = [⟨S "x", 2⟩] := by
  have h0 := (list_indent_rule [] 'x' [] [] (by decide) (by decide)).1
  have h1 := (list_indent_rule [' '] 'x' [] [] (by decide) (by decide)).1
  have h2 := (list_indent_rule [' ', ' '] 'x' [] [] (by decide) (by decide)).1
  have h3 := (list_indent_rule [' ', ' ', ' '] 'x' [] [] (by decide) (by decide)).1
  have h4 := (list_indent_rule [' ', ' ', ' ', ' '] 'x' [] [] (by decide) (by decide)).2
  exact ⟨h0.trans (by decide), h1.trans (by decide), h2.trans (by decide),
    h3.trans (by decide), h4.trans (by decide)⟩

/-! ## Claim C4: two-column placement (corrected: no overflow rule) -/

theorem colFlow_eq_ranges :
    ∀ (imgH : Str → ℚ) (left width : ℚ) (es : List ContentElement) (top : ℚ),
      colFlow imgH left width es top =
        (List.range es.length).map fun j =>
          ⟨left,
           top + ((es.take j).map (fun e => elementHeight imgH e + 137160)).sum,
           width,
           elementHeight imgH (es.getD j (.paragraph []))⟩ := by
  intro imgH left width es
  induction es with
  | nil => intro top; simp [colFlow]
  | cons e es ih =>
    intro top
    rw [colFlow, ih]
    simp only [List.length_cons, List.range_succ_eq_map, List.map_cons, List.map_map]
    congr 1
    · simp
    · apply List.map_congr_left
      intro j _
      simp [List.take_succ_cons, List.getD_cons_succ, Function.comp, add_assoc]

/-- C4 counterexample (the claim as stated is false): on a two-column slide of
twenty paragraphs the source places all twenty elements and records no warning,
even though the cursor of each ten-element column passes
`SLIDE_HEIGHT - MARGIN_BOTTOM`; the claimed overflow rule does not exist in
`_create_two_column_slide`. -/
theorem two_column_overflow_cex :
    (createTwoColumnSlide imgH0 slide20).1.length = 20 ∧
    (createTwoColumnSlide imgH0 slide20).2 = [] ∧
    SLIDE_HEIGHT - MARGIN_BOTTOM <
      ((createTwoColumnSlide imgH0 slide20).1.getD 9 ⟨0, 0, 0, 0⟩).top := by
  refine ⟨by decide, by decide, ?_⟩
  norm_num [createTwoColumnSlide, slide20, imgH0, colFlow, elementHeight, colWidth,
    MARGIN_TOP, MARGIN_LEFT, MARGIN_RIGHT, SLIDE_WIDTH, SLIDE_HEIGHT, MARGIN_BOTTOM]

/-- C4 (amended). For a `two_column` slide with `n` elements the source splits
the element list at index `n / 2` (first half in the left column, rest in the
right), flows each column from the top margin with the half-width
`(W − margins − gap) / 2` and the shared per-type height rules and a 0.15-inch
inter-element gap; unlike the content layout, no overflow rule is applied: every
element of both columns is placed and no warning is recorded. -/
theorem two_column_placement :
    ∀ (imgH : Str → ℚ) (s : SlideData),
      createTwoColumnSlide imgH s =
        (colSpec imgH MARGIN_LEFT colWidth (s.elements.take (s.elements.length / 2)) ++
           colSpec imgH (MARGIN_LEFT + colWidth + 457200) colWidth
             (s.elements.drop (s.elements.length / 2)),
         []) := by
  intro imgH s
  simp only [createTwoColumnSlide, colSpec]
  rw [colFlow_eq_ranges, colFlow_eq_ranges]

/-! ## State-invariant preservation through the parse loop -/

theorem determineLayout_of_title {s : SlideData} (h : s.layoutHint = S "title") :
    determineLayout s = s := by
  unfold determineLayout
  simp [h]

theorem slideOK_untitled : slideOK untitledSlide := by
  constructor
  · intro h; exact absurd rfl h
  · intro e he; simp [untitledSlide] at he

theorem stateOK_ensure {st : PState} (h : stateOK st) : stateOK (ensure st) := by
  unfold ensure
  cases hc : st.current with
  | none =>
    refine ⟨h.1, ?_⟩
    intro s hs
    simp at hs
    exact hs ▸ slideOK_untitled
  | some c => exact h

theorem stateOK_appendElem {st : PState} {e : ContentElement}
    (h : stateOK st) (he : elemOK e) : stateOK (appendElem st e) := by
  unfold appendElem
  refine ⟨h.1, ?_⟩
  intro s hs
  cases hc : st.current with
  | none => simp [hc] at hs
  | some c =>
    simp [hc] at hs
    have hcok := h.2 c (by simp [hc])
    subst hs
    refine ⟨hcok.1, ?_⟩
    intro x hx
    simp at hx
    rcases hx with hx | hx
    · exact hcok.2 x hx
    · exact hx ▸ he

theorem stateOK_handleHeading {st : PState} (h : stateOK st) (level : Nat) (text : Str) :
    stateOK (handleHeading st level text) := by
  unfold handleHeading
  split
  · constructor
    · intro s hs
      simp at hs
      rcases hs with hs | hs
      · exact h.1 s hs
      · exact h.2 s (by simp [hs])
    · intro s hs
      simp at hs
      subst hs
      exact ⟨fun hsub => absurd rfl hsub, fun e he => by simp at he⟩
  · exact stateOK_appendElem (stateOK_ensure h) trivial

theorem stateOK_addParagraph {st : PState} (h : stateOK st) (text : Str) :
    stateOK (addParagraph st text) := by
  have hens := stateOK_ensure h
  simp only [addParagraph]
  cases hc : (ensure st).current with
  | none => simpa [hc] using hens
  | some c =>
    have hcok : slideOK c := hens.2 c (by simp [hc])
    have hslides := hens.1
    simp only [hc]
    split
    · next hcond =>
      refine ⟨hslides, ?_⟩
      intro s hs
      simp at hs
      subst hs
      exact ⟨fun _ => hcond.1, hcok.2⟩
    · refine ⟨hslides, ?_⟩
      intro s hs
      simp at hs
      subst hs
      refine ⟨hcok.1, ?_⟩
      intro e he
      simp at he
      rcases he with he | he
      · exact hcok.2 e he
      · exact he ▸ trivial

theorem stateOK_addImage {st : PState} (h : stateOK st) (path altText : Str) :
    stateOK (addImage st path altText) := by
  unfold addImage
  split
  · exact ⟨(stateOK_ensure h).1, (stateOK_ensure h).2⟩
  · next hp =>
    refine stateOK_appendElem (stateOK_ensure h) ?_
    simp only [elemOK]
    simpa using hp

theorem elemOK_parseCodeBlock (l : Str) (rest : List Str) :
    elemOK (parseCodeBlock l rest).1 := by
  simp [parseCodeBlock, elemOK]

theorem splitRow_ne_nil (l : Str) : splitRow l ≠ [] := by
  unfold splitRow
  intro h
  simp at h
  exact splitOn_ne_nil _ _ h

theorem elemOK_parseTable (l : Str) (rest : List Str) :
    elemOK (parseTable l rest).1 := by
  simp only [parseTable, elemOK]
  intro r hr
  simp at hr
  obtain ⟨a, _, ha⟩ := hr
  exact ha ▸ splitRow_ne_nil a

theorem stateOK_init : stateOK {} := by
  constructor
  · intro s hs; simp at hs
  · intro s hs; simp at hs

theorem parseLoop_stateOK :
    ∀ (fuel : Nat) (ls : List Str) (st st' : PState),
      parseLoop fuel ls st = some st' → stateOK st → stateOK st' := by
  intro fuel
  induction fuel with
  | zero => intro ls st st' h; simp [parseLoop] at h
  | succ n ih =>
    intro ls st st' h hok
    cases ls with
    | nil =>
      simp only [parseLoop, Option.some.injEq] at h
      exact h ▸ hok
    | cons l rest =>
      simp only [parseLoop] at h
      split at h
      · exact ih _ _ _ h (stateOK_appendElem (stateOK_ensure hok) (elemOK_parseCodeBlock l rest))
      · split at h
        · exact ih _ _ _ h (stateOK_appendElem (stateOK_ensure hok) (elemOK_parseTable l rest))
        · split at h
          · exact ih _ _ _ h (stateOK_handleHeading hok _ _)
          · split at h
            · exact ih _ _ _ h (stateOK_addImage hok _ _)
            · split at h
              · split at h
                · exact ih _ _ _ h (stateOK_ensure hok)
                · exact ih _ _ _ h (stateOK_appendElem (stateOK_ensure hok) trivial)
              · split at h
                · split at h
                  · exact ih _ _ _ h (stateOK_ensure hok)
                  · exact ih _ _ _ h (stateOK_appendElem (stateOK_ensure hok) trivial)
                · split at h
                  · exact ih _ _ _ h hok
                  · exact ih _ _ _ h (stateOK_addParagraph hok _)

/-- Every slide of a successful `parse` satisfies the slide invariant. -/
theorem parse_slideOK {input : Str} {out : List SlideData × List Str}
    (h : parse input = some out) :
    ∀ s ∈ out.1,
      (s.subtitle ≠ [] → s.layoutHint = S "title") ∧ ∀ e ∈ s.elements, elemOK e := by
  simp only [parse] at h
  cases hp : parseLoop ((splitOn '\n' input).length + 1) (splitOn '\n' input) {} with
  | none => rw [hp] at h; simp at h
  | some st =>
    rw [hp] at h
    simp only [Option.map_some', Option.some.injEq] at h
    have hst := parseLoop_stateOK _ _ _ _ hp stateOK_init
    intro s hs
    rw [← h] at hs
    simp only [List.mem_map] at hs
    obtain ⟨s0, hs0, hds⟩ := hs
    have hok : slideOK s0 := by
      rcases List.mem_append.mp hs0 with h1 | h1
      · exact hst.1 s0 h1
      · exact hst.2 s0 h1
    subst hds
    constructor
    · intro hsub
      rw [determineLayout_subtitle] at hsub
      have htitle := hok.1 hsub
      rw [determineLayout_of_title htitle]
      exact htitle
    · intro e he
      rw [determineLayout_elements] at he
      exact hok.2 e he

theorem ensure_warnings (st : PState) : (ensure st).warnings = st.warnings := by
  unfold ensure
  cases st.current <;> rfl

/-! ## Claim C3: the subtitle rule -/

/-- C3. A paragraph becomes the subtitle exactly when the current slide's
layout hint is `title`, its subtitle is still empty and it has no elements; in
every other case — including a `title` slide whose elements list is already
non-empty, or a non-`title` slide with an empty subtitle — the paragraph is
appended as a PARAGRAPH element and the subtitle is left unchanged (so once set
it is never overwritten); consequently in every returned deck a slide with a
non-empty subtitle has layout hint `title`. -/
theorem subtitle_rule :
    (∀ (st : PState) (text : Str) (c : SlideData),
        (ensure st).current = some c →
        c.layoutHint = S "title" → c.subtitle = [] → c.elements = [] →
        addParagraph st text =
          { ensure st with current := some { c with subtitle := text } }) ∧
    (∀ (st : PState) (text : Str) (c : SlideData),
        (ensure st).current = some c →
        ¬(c.layoutHint = S "title" ∧ c.subtitle = [] ∧ c.elements = []) →
        addParagraph st text =
          { ensure st with
            current := some { c with elements := c.elements ++ [.paragraph text] } }) ∧
    (∀ (st : PState) (text : Str) (c : SlideData),
        (ensure st).current = some c → c.subtitle ≠ [] →
        addParagraph st text =
          { ensure st with
            current := some { c with elements := c.elements ++ [.paragraph text] } }) ∧
    (∀ (input : Str) (out : List SlideData × List Str), parse input = some out →
        ∀ s ∈ out.1, s.subtitle ≠ [] → s.layoutHint = S "title") := by
  refine ⟨?_, ?_, ?_, ?_⟩
  · intro st text c hc h1 h2 h3
    simp only [addParagraph, hc]
    rw [if_pos ⟨h1, h2, h3⟩]
  · intro st text c hc hcond
    simp only [addParagraph, hc]
    rw [if_neg hcond]
  · intro st text c hc h2
    simp only [addParagraph, hc]
    rw [if_neg (by intro hcontra; exact h2 hcontra.2.1)]
  · intro input out h s hs hsub
    exact ((parse_slideOK h) s hs).1 hsub

/-- Witness for C3 at concrete states and a concrete input: the subtitle is set
in the all-conditions case; on a `title` slide whose elements list is already
non-empty the paragraph is appended and the empty subtitle stays empty; once
the subtitle is non-empty a paragraph is appended and the subtitle kept. -/
theorem subtitle_rule_witness :
    addParagraph ⟨[], some ⟨S "T", [], [], S "title", []⟩, []⟩ (S "sub") =
      ⟨[], some ⟨S "T", S "sub", [], S "title", []⟩, []⟩ ∧
    addParagraph ⟨[], some ⟨S "T", [], [.paragraph (S "e")], S "title", []⟩, []⟩ (S "p") =
      ⟨[], some ⟨S "T", [], [.paragraph (S "e"), .paragraph (S "p")], S "title", []⟩, []⟩ ∧
    addParagraph ⟨[], some ⟨S "T", S "sub", [], S "title", []⟩, []⟩ (S "p") =
      ⟨[], some ⟨S "T", S "sub", [.paragraph (S "p")], S "title", []⟩, []⟩ ∧
    (⟨S "T", S "sub", [], S "title", []⟩ : SlideData).layoutHint = S "title" := by
  have h1 := subtitle_rule.1 ⟨[], some ⟨S "T", [], [], S "title", []⟩, []⟩ (S "sub")
    ⟨S "T", [], [], S "title", []⟩ rfl rfl rfl rfl
  have h2 := subtitle_rule.2.1 ⟨[], some ⟨S "T", [], [.paragraph (S "e")], S "title", []⟩, []⟩
    (S "p") ⟨S "T", [], [.paragraph (S "e")], S "title", []⟩ rfl (by decide)
  have h3 := subtitle_rule.2.2.1 ⟨[], some ⟨S "T", S "sub", [], S "title", []⟩, []⟩ (S "p")
    ⟨S "T", S "sub", [], S "title", []⟩ rfl (by decide)
  have hp : parse (S "# T\nsub") = some ([⟨S "T", S "sub", [], S "title", []⟩], []) := by
    decide
  have h4 := subtitle_rule.2.2.2 (S "# T\nsub") ([⟨S "T", S "sub", [], S "title", []⟩], [])
    hp ⟨S "T", S "sub", [], S "title", []⟩ (by simp) (by decide)
  exact ⟨h1.trans (by decide), h2.trans (by decide), h3.trans (by decide), h4⟩

/-! ## Claim C5: non-local images are dropped with one warning -/

/-- C5. An image reference whose path starts with `http://`, `https://` or
`data:` is never appended as an element and appends exactly one warning for the
occurrence; any other image path is appended as an IMAGE element carrying the
alt text, with no warning; consequently every IMAGE element of every returned
slide has a local path. -/
theorem nonlocal_image_rule :
    (∀ (st : PState) (path altText : Str), nonLocalPath path = true →
        addImage st path altText =
          { ensure st with warnings := st.warnings ++ [skipImageWarning path] }) ∧
    (∀ (st : PState) (path altText : Str), nonLocalPath path = false →
        addImage st path altText = appendElem (ensure st) (.image path altText) ∧
          (addImage st path altText).warnings = st.warnings) ∧
    (∀ (input : Str) (out : List SlideData × List Str), parse input = some out →
        ∀ s ∈ out.1, ∀ e ∈ s.elements, ∀ p a, e = .image p a →
          nonLocalPath p = false) := by
  refine ⟨?_, ?_, ?_⟩
  · intro st path altText h
    simp only [addImage, h, if_true, ensure_warnings]
  · intro st path altText h
    constructor
    · simp only [addImage, h, Bool.false_eq_true, if_false]
    · simp only [addImage, h, Bool.false_eq_true, if_false, appendElem, ensure_warnings]
  · intro input out h s hs e he p a hpa
    have := ((parse_slideOK h) s hs).2 e he
    rw [hpa] at this
    exact this

/-- Witness for C5: a `http://` image is dropped with one warning, a local one
is appended with no warning, and a parsed local image path is local. -/
theorem nonlocal_image_rule_witness :
    addImage {} (S "http://x") (S "a") =
      (⟨[], some untitledSlide, [S "Skipped non-local image: http://x"]⟩ : PState) ∧
    addImage {} (S "img.png") (S "a") =
      (⟨[], some ⟨S "Untitled", [], [ContentElement.image (S "img.png") (S "a")],
        S "content", []⟩, []⟩ : PState) ∧
    nonLocalPath (S "img.png") = false := by
  have h1 := nonlocal_image_rule.1 {} (S "http://x") (S "a") (by decide)
  have h2 := (nonlocal_image_rule.2.1 {} (S "img.png") (S "a") (by decide)).1
  have hp : parse (S "![a](img.png)") =
      some ([⟨S "Untitled", [], [ContentElement.image (S "img.png") (S "a")],
        S "image", []⟩], []) := by decide
  have h3 := nonlocal_image_rule.2.2 (S "![a](img.png)") _ hp
    ⟨S "Untitled", [], [ContentElement.image (S "img.png") (S "a")], S "image", []⟩
    (by simp) (ContentElement.image (S "img.png") (S "a")) (by simp)
    (S "img.png") (S "a") rfl
  exact ⟨h1.trans (by decide), h2.trans (by decide), h3⟩

/-! ## Claim C6: table-to-chart conversion under the chart layout -/

/-- C6. A TABLE element handled under the `chart` layout with fewer than 2
header columns or zero data rows is rendered as a TABLE element instead;
otherwise the first cell of each row becomes a category, each remaining header
column becomes a series, a missing cell contributes 0 and a cell that does not
parse as a number after comma removal contributes 0; the tables the parser
produces never contain an empty row, so the category extraction is total. -/
theorem chart_from_table_rule :
    (∀ (headers : List Str) (rows : List (List Str)),
        (headers.length < 2 ∨ rows = []) →
        chartFromTable headers rows = .fallbackTable) ∧
    (∀ (headers : List Str) (rows : List (List Str)),
        2 ≤ headers.length → rows ≠ [] → (∀ r ∈ rows, r ≠ []) →
        chartFromTable headers rows =
          .chart (rows.map fun r => r.headD [])
            ((List.range (headers.length - 1)).map fun k =>
              ((headers.drop 1).getD k [], rows.map fun r => cellValue r (k + 1)))) ∧
    (∀ (row : List Str) (c : Nat), row.length ≤ c → cellValue row c = .finite 0) ∧
    (∀ (row : List Str) (c : Nat), c < row.length →
        pyFloatParse (removeCommas (row.getD c [])) = none →
        cellValue row c = .finite 0) ∧
    (∀ (input : Str) (out : List SlideData × List Str), parse input = some out →
        ∀ s ∈ out.1, ∀ e ∈ s.elements, ∀ hs rs, e = .table hs rs →
          ∀ r ∈ rs, r ≠ []) := by
  refine ⟨?_, ?_, ?_, ?_, ?_⟩
  · intro headers rows h
    simp only [chartFromTable]
    rw [if_pos h]
  · intro headers rows h1 h2 h3
    simp only [chartFromTable]
    rw [if_neg (by push_neg; exact ⟨by omega, h2⟩)]
    rw [if_neg ?_]
    simp only [List.any_eq_true, not_exists, not_and]
    intro r hr
    simpa using h3 r hr
  · intro row c h
    simp only [cellValue]
    rw [if_neg (by omega)]
  · intro row c hc hn
    simp only [cellValue]
    rw [if_pos hc, hn]
    rfl
  · intro input out h s hs e he hdrs rs hers
    have := ((parse_slideOK h) s hs).2 e he
    rw [hers] at this
    exact this

/-- Witness for C6: the fallback at a one-column table, and the chart at a
concrete table with a comma-grouped number, a non-numeric cell and a missing
cell. -/
theorem chart_from_table_rule_witness :
    chartFromTable [S "only"] [[S "r"]] = .fallbackTable ∧
    chartFromTable [S "Q", S "A", S "B"] [[S "x", S "1,0", S "z"], [S "y"]] =
      .chart [S "x", S "y"]
        [(S "A", [cellValue [S "x", S "1,0", S "z"] 1, cellValue [S "y"] 1]),
         (S "B", [cellValue [S "x", S "1,0", S "z"] 2, cellValue [S "y"] 2])] ∧
    cellValue [S "y"] 2 = .finite 0 ∧
    cellValue [S "x", S "1,0", S "z"] 2 = .finite 0 := by
  have h1 := chart_from_table_rule.1 [S "only"] [[S "r"]] (Or.inl (by decide))
  have h2 := chart_from_table_rule.2.1 [S "Q", S "A", S "B"]
    [[S "x", S "1,0", S "z"], [S "y"]] (by decide) (by decide) (by decide)
  have h3 := chart_from_table_rule.2.2.1 [S "y"] 2 (by decide)
  have h4 := chart_from_table_rule.2.2.2.1 [S "x", S "1,0", S "z"] 2 (by decide)
    (by rfl)
  refine ⟨h1, h2.trans ?_, h3, h4⟩
  rfl

/-! ## Title bookkeeping for claim C1 -/

@[simp] theorem slides_ensure (st : PState) : (ensure st).slides = st.slides := by
  unfold ensure
  cases st.current <;> rfl

@[simp] theorem slides_appendElem (st : PState) (e : ContentElement) :
    (appendElem st e).slides = st.slides := rfl

@[simp] theorem slides_addImage (st : PState) (p a : Str) :
    (addImage st p a).slides = st.slides := by
  unfold addImage
  split <;> simp [appendElem]

@[simp] theorem slides_addParagraph (st : PState) (t : Str) :
    (addParagraph st t).slides = st.slides := by
  simp only [addParagraph]
  cases hc : (ensure st).current with
  | none => simp
  | some c => simp only [hc]; split <;> simp

theorem startTitle_false (c : Option Str) : startTitle c false = c := by
  cases c <;> rfl

theorem startTitle_some (t : Str) (b : Bool) : startTitle (some t) b = some t := rfl

theorem startTitle_idem (c : Option Str) (b : Bool) :
    startTitle (startTitle c true) b = startTitle c true := by
  cases c <;> rfl

theorem curTitle_ensure (st : PState) :
    curTitle (ensure st) = startTitle (curTitle st) true := by
  unfold ensure curTitle startTitle
  cases hc : st.current with
  | none => simp [hc, untitledSlide]
  | some c => simp [hc]

@[simp] theorem curTitle_appendElem (st : PState) (e : ContentElement) :
    curTitle (appendElem st e) = curTitle st := by
  unfold appendElem curTitle
  cases st.current <;> rfl

theorem curTitle_addImage (st : PState) (p a : Str) :
    curTitle (addImage st p a) = startTitle (curTitle st) true := by
  simp only [addImage]
  split
  · exact curTitle_ensure st
  · rw [curTitle_appendElem, curTitle_ensure]

theorem curTitle_addParagraph (st : PState) (t : Str) :
    curTitle (addParagraph st t) = startTitle (curTitle st) true := by
  rw [← curTitle_ensure]
  simp only [addParagraph]
  cases hc : (ensure st).current with
  | none => rfl
  | some c =>
    simp only [hc]
    split <;> simp [curTitle, hc]

theorem handleHeading_le2_slides (st : PState) {level : Nat} (text : Str)
    (h : level ≤ 2) :
    (handleHeading st level text).slides = st.slides ++ st.current.toList := by
  unfold handleHeading
  rw [if_pos h]

theorem handleHeading_le2_cur (st : PState) {level : Nat} (text : Str)
    (h : level ≤ 2) :
    curTitle (handleHeading st level text) = some text := by
  unfold handleHeading
  rw [if_pos h]
  rfl

theorem handleHeading_gt2_slides (st : PState) {level : Nat} (text : Str)
    (h : ¬ level ≤ 2) :
    (handleHeading st level text).slides = st.slides := by
  unfold handleHeading
  rw [if_neg h]
  simp

theorem handleHeading_gt2_cur (st : PState) {level : Nat} (text : Str)
    (h : ¬ level ≤ 2) :
    curTitle (handleHeading st level text) = startTitle (curTitle st) true := by
  unfold handleHeading
  rw [if_neg h, curTitle_appendElem, curTitle_ensure]

theorem map_title_toList (st : PState) :
    (st.current.toList).map (·.title) = (curTitle st).toList := by
  unfold curTitle
  cases st.current <;> rfl

theorem finalTitle_nil_false (c : Option Str) : finalTitle c false [] = c :=
  startTitle_false c

theorem flushedTitles_start (c : Option Str) (b : Bool) (hs : List Str) :
    flushedTitles (startTitle c true) b hs = flushedTitles c true hs := by
  cases hs <;> simp [flushedTitles, startTitle_idem]

theorem finalTitle_start (c : Option Str) (b : Bool) (hs : List Str) :
    finalTitle (startTitle c true) b hs = finalTitle c true hs := by
  cases hs <;> simp [finalTitle, startTitle_idem]

/-- The loop correspondence behind claim C1: a successful `parseLoop` run flushes
exactly the titles predicted by `gLoop` from the state's open title. -/
theorem parseLoop_titles :
    ∀ (fuel : Nat) (ls : List Str) (st st' : PState),
      parseLoop fuel ls st = some st' →
      ∃ b hs, gLoop fuel ls = some (b, hs) ∧
        st'.slides.map (·.title) =
          st.slides.map (·.title) ++ flushedTitles (curTitle st) b hs ∧
        curTitle st' = finalTitle (curTitle st) b hs := by
  intro fuel
  induction fuel with
  | zero => intro ls st st' h; simp [parseLoop] at h
  | succ n ih =>
    intro ls st st' h
    cases ls with
    | nil =>
      simp only [parseLoop, Option.some.injEq] at h
      subst h
      exact ⟨false, [], rfl, by simp [flushedTitles], (finalTitle_nil_false _).symm⟩
    | cons l rest =>
      simp only [parseLoop] at h
      by_cases h1 : isCodeFence l = true
      · rw [if_pos h1] at h
        obtain ⟨b', hs', hg, hsl, hc⟩ := ih _ _ _ h
        refine ⟨true, hs', ?_, ?_, ?_⟩
        · simp only [gLoop]
          rw [if_pos h1, hg]
          rfl
        · rw [hsl]
          simp [curTitle_ensure, flushedTitles_start]
        · rw [hc]
          simp [curTitle_ensure, finalTitle_start]
      · rw [if_neg h1] at h
        split at h
        next h2 =>
          obtain ⟨b', hs', hg, hsl, hc⟩ := ih _ _ _ h
          refine ⟨true, hs', ?_, ?_, ?_⟩
          · simp only [gLoop]
            rw [if_neg h1, if_pos h2, hg]
            rfl
          · rw [hsl]
            simp [curTitle_ensure, flushedTitles_start]
          · rw [hc]
            simp [curTitle_ensure, finalTitle_start]
        next h2 =>
          cases hm : headingMatch l with
          | some lt =>
            simp only [hm] at h
            by_cases hl : lt.1 ≤ 2
            · obtain ⟨b', hs', hg, hsl, hc⟩ := ih _ _ _ h
              refine ⟨false, pyStrip lt.2 :: hs', ?_, ?_, ?_⟩
              · simp only [gLoop]
                rw [if_neg h1, if_neg h2]
                simp only [hm]
                rw [if_pos hl, hg]
                rfl
              · rw [hsl, handleHeading_le2_slides st _ hl, handleHeading_le2_cur st _ hl]
                cases hs' with
                | nil =>
                  simp [flushedTitles, map_title_toList, startTitle_false, startTitle_some]
                | cons a as =>
                  simp [flushedTitles, map_title_toList, startTitle_false, startTitle_some,
                    List.dropLast]
              · rw [hc, handleHeading_le2_cur st _ hl]
                cases hs' with
                | nil => simp [finalTitle, startTitle_some, List.getLast?]
                | cons a as => simp [finalTitle, List.getLast?_cons_cons]
            · obtain ⟨b', hs', hg, hsl, hc⟩ := ih _ _ _ h
              refine ⟨true, hs', ?_, ?_, ?_⟩
              · simp only [gLoop]
                rw [if_neg h1, if_neg h2]
                simp only [hm]
                rw [if_neg hl, hg]
                rfl
              · rw [hsl, handleHeading_gt2_slides st _ hl, handleHeading_gt2_cur st _ hl]
                simp [flushedTitles_start]
              · rw [hc, handleHeading_gt2_cur st _ hl]
                simp [finalTitle_start]
          | none =>
            simp only [hm] at h
            cases him : imageMatch (pyStrip l) with
            | some ap =>
              simp only [him] at h
              obtain ⟨b', hs', hg, hsl, hc⟩ := ih _ _ _ h
              refine ⟨true, hs', ?_, ?_, ?_⟩
              · simp only [gLoop]
                rw [if_neg h1, if_neg h2]
                simp only [hm, him]
                rw [hg]
                rfl
              · rw [hsl, slides_addImage, curTitle_addImage]
                simp [flushedTitles_start]
              · rw [hc, curTitle_addImage]
                simp [finalTitle_start]
            | none =>
              simp only [him] at h
              by_cases hb : bulletGuard l = true
              · rw [if_pos hb] at h
                have hsl1 : (if (bulletCollect (l :: rest)).1 = [] then ensure st
                    else appendElem (ensure st)
                      (.bulletList (bulletCollect (l :: rest)).1)).slides = st.slides := by
                  split <;> simp
                have hcur1 : curTitle (if (bulletCollect (l :: rest)).1 = [] then ensure st
                    else appendElem (ensure st)
                      (.bulletList (bulletCollect (l :: rest)).1)) =
                    startTitle (curTitle st) true := by
                  split
                  · exact curTitle_ensure st
                  · rw [curTitle_appendElem, curTitle_ensure]
                obtain ⟨b', hs', hg, hsl, hc⟩ := ih _ _ _ h
                refine ⟨true, hs', ?_, ?_, ?_⟩
                · simp only [gLoop]
                  rw [if_neg h1, if_neg h2]
                  simp only [hm, him]
                  rw [if_pos hb, hg]
                  rfl
                · rw [hsl, hsl1, hcur1]
                  simp [flushedTitles_start]
                · rw [hc, hcur1]
                  simp [finalTitle_start]
              · rw [if_neg hb] at h
                by_cases hnum : numberedGuard l = true
                · rw [if_pos hnum] at h
                  have hsl1 : (if (numberedCollect (l :: rest)).1 = [] then ensure st
                      else appendElem (ensure st)
                        (.numberedList (numberedCollect (l :: rest)).1)).slides =
                      st.slides := by
                    split <;> simp
                  have hcur1 : curTitle (if (numberedCollect (l :: rest)).1 = [] then
                      ensure st
                      else appendElem (ensure st)
                        (.numberedList (numberedCollect (l :: rest)).1)) =
                      startTitle (curTitle st) true := by
                    split
                    · exact curTitle_ensure st
                    · rw [curTitle_appendElem, curTitle_ensure]
                  obtain ⟨b', hs', hg, hsl, hc⟩ := ih _ _ _ h
                  refine ⟨true, hs', ?_, ?_, ?_⟩
                  · simp only [gLoop]
                    rw [if_neg h1, if_neg h2]
                    simp only [hm, him]
                    rw [if_neg hb, if_pos hnum, hg]
                    rfl
                  · rw [hsl, hsl1, hcur1]
                    simp [flushedTitles_start]
                  · rw [hc, hcur1]
                    simp [finalTitle_start]
                · rw [if_neg hnum] at h
                  by_cases hblank : pyStrip l = []
                  · rw [if_pos hblank] at h
                    obtain ⟨b', hs', hg, hsl, hc⟩ := ih _ _ _ h
                    refine ⟨b', hs', ?_, hsl, hc⟩
                    simp only [gLoop]
                    rw [if_neg h1, if_neg h2]
                    simp only [hm, him]
                    rw [if_neg hb, if_neg hnum, if_pos hblank, hg]
                  · rw [if_neg hblank] at h
                    obtain ⟨b', hs', hg, hsl, hc⟩ := ih _ _ _ h
                    refine ⟨true, hs', ?_, ?_, ?_⟩
                    · simp only [gLoop]
                      rw [if_neg h1, if_neg h2]
                      simp only [hm, him]
                      rw [if_neg hb, if_neg hnum, if_neg hblank, hg]
                      rfl
                    · rw [hsl, slides_addParagraph, curTitle_addParagraph]
                      simp [flushedTitles_start]
                    · rw [hc, curTitle_addParagraph]
                      simp [finalTitle_start]

theorem startTitle_none (b : Bool) :
    startTitle none b = if b then some (S "Untitled") else none := rfl

/-! ## Claim C1 (amended): slides versus level-1/2 headings -/

/-- C1 (amended). Whenever `parse` terminates on an input, the deck's titles are
exactly the stripped texts of the level-1/level-2 headings of the input in
source order (as computed by the ghost pass `gLoop`), preceded by exactly one
"Untitled" slide when slide-creating content occurs before the first such
heading; in particular every slide opened is eventually appended, the last one
at end of input. -/
theorem one_slide_per_heading :
    ∀ (input : Str) (deck : List SlideData) (warns : List Str),
      parse input = some (deck, warns) →
      ∃ b hs,
        gLoop ((splitOn '\n' input).length + 1) (splitOn '\n' input) = some (b, hs) ∧
        deck.map (·.title) = (if b then [S "Untitled"] else []) ++ hs := by
  intro input deck warns h
  simp only [parse] at h
  cases hp : parseLoop ((splitOn '\n' input).length + 1) (splitOn '\n' input) {} with
  | none => rw [hp] at h; simp at h
  | some st =>
    rw [hp] at h
    simp only [Option.map_some', Option.some.injEq, Prod.mk.injEq] at h
    obtain ⟨hdeck, _⟩ := h
    obtain ⟨b, hs, hg, hsl, hc⟩ := parseLoop_titles _ _ _ _ hp
    refine ⟨b, hs, hg, ?_⟩
    have hmap : deck.map (·.title) = (st.slides ++ st.current.toList).map (·.title) := by
      rw [← hdeck, List.map_map]
      exact List.map_congr_left fun s _ => determineLayout_title s
    rw [hmap, List.map_append, hsl, map_title_toList, hc]
    have hnil : (({} : PState)).slides.map (·.title) = [] := rfl
    rw [show curTitle ({} : PState) = none from rfl] at hsl hc ⊢
    cases hs with
    | nil =>
      simp [flushedTitles, finalTitle, startTitle_none]
      cases b <;> simp
    | cons a as =>
      have hne : (a :: as) ≠ [] := by simp
      simp only [flushedTitles, finalTitle]
      rw [List.getLast?_eq_getLast _ hne]
      simp only [startTitle_none, Option.toList_some]
      cases b <;>
        simp [List.append_assoc, List.dropLast_append_getLast hne]

/-- C1 counterexample (the claim as stated is false): the input `"x\n# T"`
contains exactly one level-1/2 heading, yet `parse` returns a deck of two
slides — the paragraph before the heading creates an extra "Untitled" slide. -/
theorem one_slide_per_heading_cex :
    (parse (S "x\n# T")).map (fun o => o.1.map (·.title)) =
      some [S "Untitled", S "T"] ∧
    (gLoop ((splitOn '\n' (S "x\n# T")).length + 1) (splitOn '\n' (S "x\n# T"))).map
        (fun r => r.2) = some [S "T"] ∧
    (parse (S "x\n# T")).map (fun o => o.1.length) = some 2 := by
  refine ⟨by decide, by decide, by decide⟩

/-- Witness for C1 at the input `"# A\nx\n## B"`. -/
theorem one_slide_per_heading_witness :
    ∃ b hs,
      gLoop ((splitOn '\n' (S "# A\nx\n## B")).length + 1)
        (splitOn '\n' (S "# A\nx\n## B")) = some (b, hs) ∧
      ([⟨S "A", S "x", [], S "title", []⟩,
        ⟨S "B", [], [], S "content", []⟩] : List SlideData).map (·.title) =
        (if b then [S "Untitled"] else []) ++ hs :=
  one_slide_per_heading (S "# A\nx\n## B") _ [] (by decide)

/-! ## Claim C10: a lone non-local image still creates an "Untitled" slide -/

theorem splitOn_not_mem {sep : Char} {s : Str} (h : ∀ c ∈ s, ¬ c = sep) :
    splitOn sep s = [s] := by
  induction s with
  | nil => rfl
  | cons c rest ih =>
    have hc : (c == sep) = false := by
      simpa using h c (by simp)
    simp only [splitOn, hc, Bool.false_eq_true, if_false]
    rw [ih fun x hx => h x (by simp [hx])]

theorem rstrip_append_nonspace (s : Str) (c : Char) (hc : pySpace c = false) :
    rstrip (s ++ [c]) = s ++ [c] := by
  unfold rstrip
  rw [List.reverse_append]
  simp only [List.reverse_cons, List.reverse_nil, List.nil_append, List.singleton_append,
    List.dropWhile_cons, hc, Bool.false_eq_true, if_false]
  simp

theorem mkImageLine_closed (alt path : Str) :
    mkImageLine alt path = ('!' :: '[' :: (alt ++ ']' :: '(' :: path)) ++ [')'] := by
  simp [mkImageLine]

theorem pyStrip_mkImageLine (alt path : Str) :
    pyStrip (mkImageLine alt path) = mkImageLine alt path := by
  have hbang : pySpace '!' = false := by decide
  have hpar : pySpace ')' = false := by decide
  unfold pyStrip
  have hl : lstrip (mkImageLine alt path) = mkImageLine alt path := by
    simp [lstrip, mkImageLine, List.dropWhile_cons, hbang]
  rw [hl, mkImageLine_closed, rstrip_append_nonspace _ _ hpar]

/-- C10. For an input that is a single non-local image reference line, `parse`
returns a deck of exactly one slide titled "Untitled" with zero elements (the
lazy slide is created before the locality check drops the image) and exactly
the one skip warning — the run is not the zero-slides fatal case. -/
theorem nonlocal_image_untitled_slide :
    ∀ (alt path : Str),
      (∀ c ∈ alt, ¬ c = ']' ∧ ¬ c = '\n') →
      path ≠ [] →
      (∀ c ∈ path, ¬ c = ')' ∧ ¬ c = '\n') →
      nonLocalPath path = true →
      parse (mkImageLine alt path) =
        some ([⟨S "Untitled", [], [], S "content", []⟩],
          [S "Skipped non-local image: " ++ path]) := by
  intro alt path halt hpne hpath hnl
  have hsplit : splitOn '\n' (mkImageLine alt path) = [mkImageLine alt path] := by
    apply splitOn_not_mem
    intro c hc
    have hc' : c = '!' ∨ c = '[' ∨ c ∈ alt ∨ c = ']' ∨ c = '(' ∨ c ∈ path ∨ c = ')' := by
      simpa [mkImageLine, or_assoc] using hc
    rcases hc' with rfl | rfl | h | rfl | rfl | h | rfl
    · decide
    · decide
    · exact (halt _ h).2
    · decide
    · decide
    · exact (hpath _ h).2
    · decide
  have hstrip := pyStrip_mkImageLine alt path
  have hfence : isCodeFence (mkImageLine alt path) = false := by
    unfold isCodeFence
    rw [hstrip]
    simp [mkImageLine, S, List.isPrefixOf]
  have hhead : headingMatch (mkImageLine alt path) = none := by
    simp [headingMatch, mkImageLine, List.takeWhile_cons]
  have htw : (alt ++ ']' :: '(' :: (path ++ [')'])).takeWhile
      (fun x => decide (x ≠ ']')) = alt := by
    rw [takeWhile_append_of_all (fun x hx => by simp [(halt x hx).1])]
    simp
  have htw2 : (path ++ [')']).takeWhile (fun x => decide (x ≠ ')')) = path := by
    rw [takeWhile_append_of_all (fun x hx => by simp [(hpath x hx).1])]
    simp
  have himg : imageMatch (mkImageLine alt path) = some (alt, path) := by
    simp only [imageMatch, mkImageLine]
    rw [htw, List.drop_left]
    show (if (path ++ [')']).takeWhile (fun x => decide (x ≠ ')')) = [] then none
        else if ((path ++ [')']).drop
            ((path ++ [')']).takeWhile (fun x => decide (x ≠ ')'))).length).head? =
            some ')' then
          some (alt, (path ++ [')']).takeWhile (fun x => decide (x ≠ ')')))
        else none) = some (alt, path)
    rw [htw2, if_neg hpne, List.drop_left]
    simp
  unfold parse
  rw [hsplit]
  simp only [List.length_cons, List.length_nil, Nat.zero_add]
  rw [show parseLoop (1 + 1) [mkImageLine alt path] {} =
      parseLoop 1 [] (addImage {} path alt) from ?_]
  · rw [show parseLoop 1 [] (addImage {} path alt) = some (addImage {} path alt) from rfl]
    have haddi : addImage {} path alt =
        ⟨[], some untitledSlide, [S "Skipped non-local image: " ++ path]⟩ := by
      simp [addImage, ensure, hnl, skipImageWarning]
    rw [haddi]
    simp only [Option.map_some']
    have hdl : determineLayout untitledSlide = ⟨S "Untitled", [], [], S "content", []⟩ := by
      decide
    simp [hdl]
  · show parseLoop 2 [mkImageLine alt path] {} = _
    simp only [parseLoop, hfence, Bool.false_eq_true, if_false, Bool.and_false,
      hhead, hstrip, himg]

/-- Witness for C10 at the single-line input `![a](http://x)`. -/
theorem nonlocal_image_untitled_slide_witness :
    parse (mkImageLine (S "a") (S "http://x")) =
      some ([⟨S "Untitled", [], [], S "content", []⟩],
        [S "Skipped non-local image: " ++ S "http://x"]) :=
  nonlocal_image_untitled_slide (S "a") (S "http://x") (by decide) (by decide)
    (by decide) (by decide)

end MdToPptx
